import Mathlib

/-!
# multiproject-postgres: the provisioning script `main.go`

A shallow embedding of `src/main.go`.  The program is a straight-line script whose
only control flow is "log fatally and exit"; it is embedded in a small monad that
threads the observable world (server state, process environment, the statements
handed to `db.Exec`, the log) and short-circuits on process exit.

Library calls whose code is not part of the repository (`godotenv.Load`, `sql.Open`,
`db.Ping`, `db.Exec`, `petname.Generate`) are fields of a `Platform`; the general
theorems hold for every platform, server state and environment, and the examples
evaluate the script on a concrete one.
-/

namespace Provision

/-! ## World, results, and the program monad -/

/-- Process environment: the value of a variable, `none` when it is unset. -/
abbrev Env := String → Option String

/-- How a computation ends: it returns a value, or the process exits
(`os.Exit`, reached through `log.Fatal` and `log.Fatalf`) with a status code. -/
inductive Res (α : Type) where
  | ret (a : α) : Res α
  | exit (code : Nat) : Res α
  deriving DecidableEq, Repr

/-- The observable world of a run, every list oldest first.
* `opened` : the connection strings handed to `sql.Open`;
* `execTrace` : every statement handed to `db.Exec`, with the error it returned
  (`none` on success);
* `safeExecCalls` : the arguments (query, rollback queries) of every call of `safeExec`;
* `log` : every message handed to the standard logger (the text produced by the
  `Sprintf`/`Sprint`/`Sprintln` step, before the logger adds its timestamp). -/
structure World (σ : Type) where
  server : σ
  env : Env
  opened : List String
  execTrace : List (String × Option String)
  safeExecCalls : List (String × List String)
  log : List String

/-- The library calls the script depends on.  An error is `some msg`, success `none`.
* `godotenvLoad` : `godotenv.Load(".env")` on the current environment;
* `sqlOpen` : `sql.Open("postgres", connectionString)`;
* `ping` : `db.Ping()`;
* `exec` : `db.Exec(query)`;
* `petnameGenerate` : the value `petname.Generate(2, "")` yields in this run. -/
structure Platform (σ : Type) where
  godotenvLoad : Env → Env × Option String
  sqlOpen : String → Option String
  ping : σ → σ × Option String
  exec : σ → String → σ × Option String
  petnameGenerate : String

/-- A program: a world transformer that returns or exits. -/
def Prog (σ α : Type) : Type := World σ → Res α × World σ

/-- Sequencing: once the process has exited nothing after it runs. -/
def Prog.bind {σ α β : Type} (m : Prog σ α) (f : α → Prog σ β) : Prog σ β :=
  fun w =>
    match m w with
    | (Res.ret a, w1) => f a w1
    | (Res.exit c, w1) => (Res.exit c, w1)

instance {σ : Type} : Monad (Prog σ) where
  pure a := fun w => (Res.ret a, w)
  bind := Prog.bind

/-- `log.Print`, `log.Printf`, `log.Println`: hand the formatted message to the logger. -/
def logPrint {σ : Type} (msg : String) : Prog σ Unit :=
  fun w => (Res.ret (), { w with log := w.log ++ [msg] })

/-- `log.Fatal`, `log.Fatalf`: `Print` followed by `os.Exit(1)`. -/
def logFatal {σ : Type} (msg : String) : Prog σ Unit :=
  fun w => (Res.exit 1, { w with log := w.log ++ [msg] })

/-- `os.Getenv`: the value of the variable, the empty string when it is unset. -/
def osGetenv {σ : Type} (varName : String) : Prog σ String :=
  fun w => (Res.ret ((w.env varName).getD ""), w)

/-- `godotenv.Load(".env")`: may change the environment, returns its error. -/
def godotenvLoad {σ : Type} (P : Platform σ) : Prog σ (Option String) :=
  fun w => (Res.ret (P.godotenvLoad w.env).2, { w with env := (P.godotenvLoad w.env).1 })

/-- `sql.Open("postgres", connectionString)`: returns its error. -/
def sqlOpen {σ : Type} (P : Platform σ) (connectionString : String) : Prog σ (Option String) :=
  fun w => (Res.ret (P.sqlOpen connectionString),
    { w with opened := w.opened ++ [connectionString] })

/-- `db.Ping()`: returns its error. -/
def dbPing {σ : Type} (P : Platform σ) : Prog σ (Option String) :=
  fun w => (Res.ret (P.ping w.server).2, { w with server := (P.ping w.server).1 })

/-- `db.Exec(query)`: the statement reaches the server, which returns its error. -/
def dbExec {σ : Type} (P : Platform σ) (query : String) : Prog σ (Option String) :=
  fun w =>
    (Res.ret (P.exec w.server query).2,
      { w with server := (P.exec w.server query).1,
               execTrace := w.execTrace ++ [(query, (P.exec w.server query).2)] })

/-- Entry into `safeExec`: note the arguments of the call. -/
def enterSafeExec {σ : Type} (query : String) (rollbackQueries : List String) : Prog σ Unit :=
  fun w => (Res.ret (), { w with safeExecCalls := w.safeExecCalls ++ [(query, rollbackQueries)] })

/-! ## Identifier quoting -/

/-- Modelled from the spec: the escaping step of `pq.QuoteIdentifier`, which is not part
of this repository.  Every double quote of the name is doubled. -/
def escapeQuotes : List Char → List Char
  | [] => []
  | c :: cs => if c = '"' then '"' :: '"' :: escapeQuotes cs else c :: escapeQuotes cs

/-- Modelled from the spec: `pq.QuoteIdentifier` belongs to the `lib/pq` driver and is
not part of this repository.  The name is wrapped in double quotes and each embedded
double quote is doubled.  (The driver also cuts the name at a NUL byte; a command-line
argument or environment value cannot contain one.) -/
def QuoteIdentifier (name : String) : String :=
  "\"" ++ String.mk (escapeQuotes name.data) ++ "\""

/-! ## The script -/

/-- `safeExec` (main.go lines 85-106).  The first line is bookkeeping only: it
records the call in `safeExecCalls`. -/
def safeExec {σ : Type} (P : Platform σ) (query : String) (rollbackQueries : List String) :
    Prog σ Unit := do
  enterSafeExec query rollbackQueries
  logPrint ("Executing query: " ++ query ++ "\n")
  let err ← dbExec P query
  match err with
  | none => pure ()
  | some e =>
    logFatal ("Error while executing query: " ++ e ++ "\n")
    logPrint "Executing rollback queries...\n"
    let mut success := true
    for rollbackQuery in rollbackQueries do
      logPrint ("Executing rollback query: " ++ rollbackQuery ++ "\n")
      let err ← dbExec P rollbackQuery
      match err with
      | none => pure ()
      | some e =>
        success := false
        logPrint ("Error while executing rollback query: " ++ e ++ "\n")
    if success then
      logFatal "Succesfully executed rollback"
    else
      logFatal "Failed to execute rollback, errors are above"

/-- `safelyGetEnvVar` (main.go lines 108-114). -/
def safelyGetEnvVar {σ : Type} (varName : String) : Prog σ String := do
  let value ← osGetenv varName
  if value.length = 0 then
    logFatal ("Failed to load environment variable: " ++ value)
  return value

/-- `main` (main.go lines 17-80); `osArgs` is `os.Args`.  `defer db.Close()` and
`petname.NonDeterministicMode()` have no counterpart: the first runs on normal return
only and touches nothing a world records, the second seeds the generator whose result
is `P.petnameGenerate`. -/
def main {σ : Type} (P : Platform σ) (osArgs : List String) : Prog σ Unit := do
  if osArgs.length ≠ 3 then
    logFatal "Usage: ./[executable name] [username] [database name]"
  let projectUsername := QuoteIdentifier (osArgs.getD 1 "")
  let projectDatabaseName := QuoteIdentifier (osArgs.getD 2 "")
  let err ← godotenvLoad P
  match err with
  | none => pure ()
  | some e =>
    logPrint "Failed to load .env file"
    logPrint "Assuming process environment has necessary environment variables"
    logFatal e
  let host ← safelyGetEnvVar "DB_host"
  let port ← safelyGetEnvVar "DB_port"
  let adminDatabaseName ← safelyGetEnvVar "DB_name"
  let adminUser ← safelyGetEnvVar "DB_admin_user"
  let adminPassword ← safelyGetEnvVar "DB_admin_password"
  let connectionString := "host=" ++ host ++ " port=" ++ port ++ " user=" ++ adminUser ++
    " password=" ++ adminPassword ++ " dbname=" ++ adminDatabaseName ++ " sslmode=disable"
  let err ← sqlOpen P connectionString
  match err with
  | none => pure ()
  | some e => logFatal e
  let err ← dbPing P
  match err with
  | none => pure ()
  | some e =>
    logPrint "Failed to ping database"
    logFatal e
  let password := P.petnameGenerate
  let createUserQuery := "CREATE USER " ++ projectUsername ++
    " NOSUPERUSER NOCREATEDB NOCREATEROLE NOINHERIT PASSWORD '" ++ password ++ "';"
  safeExec P createUserQuery []
  let createUserRollback := "DROP USER " ++ projectUsername ++ ";"
  let createDatabaseQuery := "CREATE DATABASE " ++ projectDatabaseName ++ " WITH OWNER = " ++
    projectUsername ++ ";"
  safeExec P createDatabaseQuery [createUserRollback]
  let createDatabaseRollback := "DROP DATABASE " ++ projectDatabaseName ++ ";"
  let revokeConnectQuery := "REVOKE CONNECT ON DATABASE " ++ projectDatabaseName ++
    " FROM PUBLIC;"
  safeExec P revokeConnectQuery [createDatabaseRollback, createUserRollback]
  let grantConnectQuery := "GRANT connect ON DATABASE " ++ projectDatabaseName ++ " TO " ++
    projectUsername ++ ";"
  safeExec P grantConnectQuery [createDatabaseRollback, createUserRollback]
  let grantConnectQuery := "GRANT connect ON DATABASE " ++ projectDatabaseName ++ " TO " ++
    QuoteIdentifier adminUser ++ ";"
  safeExec P grantConnectQuery [createDatabaseRollback, createUserRollback]
  logPrint "All commands executed successfully\n"
  logPrint ("Created user " ++ projectUsername ++ " with password \"" ++ password ++ "\"\n")
  logPrint ("Don't lose the password! It is annoying to reset it. " ++ projectUsername ++ " " ++
    password ++ "\n")
  logPrint ("Created database " ++ projectDatabaseName ++ "\n")

/-! ## Vocabulary of the specification

The statements, the steps with their rollback lists, the report and the predicates the
theorems are stated with, as the specification words them; the theorems compare what
`main` does with these. -/

/-- `CREATE USER <user> NOSUPERUSER NOCREATEDB NOCREATEROLE NOINHERIT` with a password;
`qUser` is the quoted user name. -/
def createUserStatement (qUser password : String) : String :=
  "CREATE USER " ++ qUser ++ " NOSUPERUSER NOCREATEDB NOCREATEROLE NOINHERIT PASSWORD '" ++
    password ++ "';"

/-- `CREATE DATABASE <db> WITH OWNER = <user>`. -/
def createDatabaseStatement (qDb qUser : String) : String :=
  "CREATE DATABASE " ++ qDb ++ " WITH OWNER = " ++ qUser ++ ";"

/-- `REVOKE CONNECT ON DATABASE <db> FROM PUBLIC`. -/
def revokeConnectStatement (qDb : String) : String :=
  "REVOKE CONNECT ON DATABASE " ++ qDb ++ " FROM PUBLIC;"

/-- `GRANT connect ON DATABASE <db> TO <grantee>`. -/
def grantConnectStatement (qDb qGrantee : String) : String :=
  "GRANT connect ON DATABASE " ++ qDb ++ " TO " ++ qGrantee ++ ";"

/-- `DROP USER <user>`. -/
def dropUserStatement (qUser : String) : String := "DROP USER " ++ qUser ++ ";"

/-- `DROP DATABASE <db>`. -/
def dropDatabaseStatement (qDb : String) : String := "DROP DATABASE " ++ qDb ++ ";"

/-- The five statements of a run for user `user`, database `dbName`, admin user `admin`
and generated password `password`, in order. -/
def provisioningStatements (user dbName admin password : String) : List String :=
  [ createUserStatement (QuoteIdentifier user) password,
    createDatabaseStatement (QuoteIdentifier dbName) (QuoteIdentifier user),
    revokeConnectStatement (QuoteIdentifier dbName),
    grantConnectStatement (QuoteIdentifier dbName) (QuoteIdentifier user),
    grantConnectStatement (QuoteIdentifier dbName) (QuoteIdentifier admin) ]

/-- The five steps as the specification lists them, each statement with its rollback
list: nothing for `CREATE USER`, the user drop for `CREATE DATABASE`, the database drop
and then the user drop for the `REVOKE` and both `GRANT`s. -/
def provisioningSteps (user dbName admin password : String) : List (String × List String) :=
  [ (createUserStatement (QuoteIdentifier user) password, []),
    (createDatabaseStatement (QuoteIdentifier dbName) (QuoteIdentifier user),
      [dropUserStatement (QuoteIdentifier user)]),
    (revokeConnectStatement (QuoteIdentifier dbName),
      [dropDatabaseStatement (QuoteIdentifier dbName), dropUserStatement (QuoteIdentifier user)]),
    (grantConnectStatement (QuoteIdentifier dbName) (QuoteIdentifier user),
      [dropDatabaseStatement (QuoteIdentifier dbName), dropUserStatement (QuoteIdentifier user)]),
    (grantConnectStatement (QuoteIdentifier dbName) (QuoteIdentifier admin),
      [dropDatabaseStatement (QuoteIdentifier dbName), dropUserStatement (QuoteIdentifier user)]) ]

/-- Every statement text `main` can build for a run: the five statements and the two
rollback statements, each over the quoted names. -/
def builtStatements (user dbName admin password : String) : List String :=
  provisioningStatements user dbName admin password ++
    [dropDatabaseStatement (QuoteIdentifier dbName), dropUserStatement (QuoteIdentifier user)]

/-- A statement that starts with `DROP `: the rollback statements do. -/
def isDropStatement (s : String) : Bool := ("DROP ".data).isPrefixOf s.data

/-- The connection string `main` builds from the five settings. -/
def connectionStringOf (host port adminUser adminPassword adminDatabaseName : String) : String :=
  "host=" ++ host ++ " port=" ++ port ++ " user=" ++ adminUser ++
    " password=" ++ adminPassword ++ " dbname=" ++ adminDatabaseName ++ " sslmode=disable"

/-- The value `os.Getenv` yields for a variable once `godotenv.Load` has run. -/
def settingOf {σ : Type} (P : Platform σ) (w : World σ) (varName : String) : String :=
  ((P.godotenvLoad w.env).1 varName).getD ""

/-- The connection string built from the five settings of the loaded environment. -/
def connectionOf {σ : Type} (P : Platform σ) (w : World σ) : String :=
  connectionStringOf (settingOf P w "DB_host") (settingOf P w "DB_port")
    (settingOf P w "DB_admin_user") (settingOf P w "DB_admin_password")
    (settingOf P w "DB_name")

/-- Host, port, admin database name, admin user and admin password are all non-empty. -/
def SettingsPresent {σ : Type} (P : Platform σ) (w : World σ) : Prop :=
  settingOf P w "DB_host" ≠ "" ∧ settingOf P w "DB_port" ≠ "" ∧ settingOf P w "DB_name" ≠ "" ∧
    settingOf P w "DB_admin_user" ≠ "" ∧ settingOf P w "DB_admin_password" ≠ ""

/-- The run gets as far as the first SQL statement: the argument count is right, the
`.env` file loads, the five settings are non-empty, and the connection opens and
answers the ping. -/
structure ReachesStatements {σ : Type} (P : Platform σ) (osArgs : List String) (w : World σ)
    (user dbName : String) : Prop where
  args : ∃ prog, osArgs = [prog, user, dbName]
  load : (P.godotenvLoad w.env).2 = none
  host : (settingOf P w "DB_host").length ≠ 0
  port : (settingOf P w "DB_port").length ≠ 0
  name : (settingOf P w "DB_name").length ≠ 0
  adminUser : (settingOf P w "DB_admin_user").length ≠ 0
  adminPassword : (settingOf P w "DB_admin_password").length ≠ 0
  dbOpen : P.sqlOpen (connectionStringOf (settingOf P w "DB_host") (settingOf P w "DB_port")
    (settingOf P w "DB_admin_user") (settingOf P w "DB_admin_password")
    (settingOf P w "DB_name")) = none
  ping : (P.ping w.server).2 = none

/-- The log line `safeExec` prints before it runs a statement. -/
def executingLine (query : String) : String := "Executing query: " ++ query ++ "\n"

/-- The four lines of the success report. -/
def successReport (user dbName password : String) : List String :=
  [ "All commands executed successfully\n",
    "Created user " ++ QuoteIdentifier user ++ " with password \"" ++ password ++ "\"\n",
    "Don't lose the password! It is annoying to reset it. " ++ QuoteIdentifier user ++ " " ++
      password ++ "\n",
    "Created database " ++ QuoteIdentifier dbName ++ "\n" ]

/-- A line of the success report, whatever the names and the password in it. -/
def ReportLine (m : String) : Prop :=
  ∃ user dbName password : String, m ∈ successReport user dbName password

/-- The text `m` is the error `godotenv.Load`, `sql.Open` or `db.Ping` returned in this
run: the script hands such a text to `log.Fatal` as it is. -/
def IsLibraryError {σ : Type} (P : Platform σ) (w : World σ) (m : String) : Prop :=
  (P.godotenvLoad w.env).2 = some m ∨ P.sqlOpen (connectionOf P w) = some m ∨
    (P.ping w.server).2 = some m

/-- Every maximal run of double quotes in `body` has even length: whenever `body` splits
into `pre`, then `k` double quotes, then `post`, with no double quote right before or
right after the run, `k` is even. -/
def EvenQuoteRuns (body : List Char) : Prop :=
  ∀ (pre : List Char) (k : Nat) (post : List Char),
    body = pre ++ List.replicate k '"' ++ post →
    pre.getLast? ≠ some '"' → post.head? ≠ some '"' → Even k

/-- How SQL reads a quoted identifier, from the character after the opening quote: two
double quotes in a row stand for one, a single double quote closes the identifier.  The
result is the identifier read and the text left after the closing quote; `none` when the
identifier is never closed. -/
def readQuotedIdentifier : List Char → Option (List Char × List Char)
  | [] => none
  | c :: cs =>
    if c = '"' then
      match cs with
      | [] => some ([], [])
      | d :: ds =>
        if d = '"' then (readQuotedIdentifier ds).map (fun r => ('"' :: r.1, r.2))
        else some ([], d :: ds)
    else (readQuotedIdentifier cs).map (fun r => (c :: r.1, r.2))

/-! ## What one run adds to the world -/

/-- The statements a run of `main` hands to `db.Exec`, each with the error it got. -/
def executed {σ : Type} (P : Platform σ) (osArgs : List String) (w : World σ) :
    List (String × Option String) :=
  ((main P osArgs w).2.execTrace).drop w.execTrace.length

/-- The `safeExec` calls a run of `main` makes. -/
def called {σ : Type} (P : Platform σ) (osArgs : List String) (w : World σ) :
    List (String × List String) :=
  ((main P osArgs w).2.safeExecCalls).drop w.safeExecCalls.length

/-- The messages a run of `main` logs. -/
def logged {σ : Type} (P : Platform σ) (osArgs : List String) (w : World σ) : List String :=
  ((main P osArgs w).2.log).drop w.log.length

/-- The connection strings a run of `main` hands to `sql.Open`. -/
def connections {σ : Type} (P : Platform σ) (osArgs : List String) (w : World σ) : List String :=
  ((main P osArgs w).2.opened).drop w.opened.length

/-! ## Proof devices -/

/-- Proof device: the calls `safeExec P s.1 s.2` for the steps of a list, one after the
other, followed by `fin`.  The tail of `main` is such a chain. -/
def thenAll {σ : Type} (P : Platform σ) : List (String × List String) → Prog σ Unit → Prog σ Unit
  | [], fin => fin
  | s :: rest, fin => safeExec P s.1 s.2 >>= fun _ => thenAll P rest fin

/-- Proof device: the four `log` calls that end `main`. -/
def printReport {σ : Type} (user dbName password : String) : Prog σ Unit :=
  logPrint "All commands executed successfully\n" >>= fun _ =>
  logPrint ("Created user " ++ QuoteIdentifier user ++ " with password \"" ++ password ++
    "\"\n") >>= fun _ =>
  logPrint ("Don't lose the password! It is annoying to reset it. " ++ QuoteIdentifier user ++
    " " ++ password ++ "\n") >>= fun _ =>
  logPrint ("Created database " ++ QuoteIdentifier dbName ++ "\n")

/-- The world in which the first statement runs: `.env` is loaded, the connection string
has gone to `sql.Open`, the server has answered the ping. -/
def afterPrelude {σ : Type} (P : Platform σ) (w : World σ) : World σ :=
  { w with server := (P.ping w.server).1,
           env := (P.godotenvLoad w.env).1,
           opened := w.opened ++ [connectionStringOf (settingOf P w "DB_host")
             (settingOf P w "DB_port") (settingOf P w "DB_admin_user")
             (settingOf P w "DB_admin_password") (settingOf P w "DB_name")] }

/-! ## A concrete platform for the examples -/

/-- A process environment with the five settings. -/
def sampleEnv : Env := fun v =>
  [("DB_host", "localhost"), ("DB_port", "5432"), ("DB_name", "postgres"),
    ("DB_admin_user", "admin"), ("DB_admin_password", "secret")].lookup v

/-- A platform whose `.env` load ends with `dotenvError`, whose connection opens and
answers the ping, whose server rejects exactly the statements of `rejected`, and whose
generated password is `wiredcat`. -/
def samplePlatform (dotenvError : Option String) (rejected : List String) : Platform Unit where
  godotenvLoad := fun e => (e, dotenvError)
  sqlOpen := fun _ => none
  ping := fun s => (s, none)
  exec := fun s q => (s, if q ∈ rejected then some "rejected" else none)
  petnameGenerate := "wiredcat"

/-- The world at process start, with the given environment. -/
def startWorld (env : Env) : World Unit where
  server := ()
  env := env
  opened := []
  execTrace := []
  safeExecCalls := []
  log := []

/-! ## Running the pieces -/

theorem bind_apply {σ α β : Type} (m : Prog σ α) (f : α → Prog σ β) (w : World σ) :
    (m >>= f) w = match m w with
      | (Res.ret a, w1) => f a w1
      | (Res.exit c, w1) => (Res.exit c, w1) := rfl

theorem pure_apply {σ α : Type} (a : α) (w : World σ) :
    (pure a : Prog σ α) w = (Res.ret a, w) := rfl

/-- A statement the server accepts: `safeExec` returns, having sent just that. -/
theorem safeExec_ok {σ : Type} (P : Platform σ) (q : String) (rbs : List String)
    (w : World σ) (h : (P.exec w.server q).2 = none) :
    safeExec P q rbs w = (Res.ret (),
      { w with server := (P.exec w.server q).1,
               execTrace := w.execTrace ++ [(q, none)],
               safeExecCalls := w.safeExecCalls ++ [(q, rbs)],
               log := w.log ++ [executingLine q] }) := by
  simp only [safeExec, bind_apply, pure_apply, enterSafeExec, logPrint, dbExec, h, executingLine]

/-- A statement the server rejects: `safeExec` exits at the `log.Fatalf` and the
rollback loop after it never runs. -/
theorem safeExec_fail {σ : Type} (P : Platform σ) (q : String) (rbs : List String)
    (w : World σ) (e : String) (h : (P.exec w.server q).2 = some e) :
    safeExec P q rbs w = (Res.exit 1,
      { w with server := (P.exec w.server q).1,
               execTrace := w.execTrace ++ [(q, some e)],
               safeExecCalls := w.safeExecCalls ++ [(q, rbs)],
               log := w.log ++ [executingLine q, "Error while executing query: " ++ e ++ "\n"] }) := by
  simp only [safeExec, bind_apply, enterSafeExec, logPrint, dbExec, h, logFatal, executingLine,
    List.append_assoc, List.singleton_append]

/-- A variable with a non-empty value is returned as it is; the world is untouched. -/
theorem safelyGetEnvVar_ok {σ : Type} (varName : String) (w : World σ)
    (h : ((w.env varName).getD "").length ≠ 0) :
    safelyGetEnvVar varName w = (Res.ret ((w.env varName).getD ""), w) := by
  simp only [safelyGetEnvVar, bind_apply, pure_apply, osGetenv, h, if_false]

/-- A variable that is unset or empty: the run exits. -/
theorem safelyGetEnvVar_fail {σ : Type} (varName : String) (w : World σ)
    (h : ((w.env varName).getD "").length = 0) :
    safelyGetEnvVar varName w = (Res.exit 1,
      { w with log := w.log ++ ["Failed to load environment variable: " ++
        (w.env varName).getD ""] }) := by
  simp only [safelyGetEnvVar, bind_apply, osGetenv, h, if_true, logFatal]

/-! ## A chain of `safeExec` calls -/

/-- A chain of `safeExec` calls either stops at the first statement the server rejects,
with exit status 1 and no statement sent after it, or runs every statement and goes
on with `fin`. -/
theorem thenAll_outcome {σ : Type} (P : Platform σ) (steps : List (String × List String))
    (fin : Prog σ Unit) (W : World σ) :
    (∃ pre s post e, steps = pre ++ s :: post ∧
      (thenAll P steps fin W).1 = Res.exit 1 ∧
      (thenAll P steps fin W).2.execTrace =
        W.execTrace ++ (pre.map fun x => (x.1, none)) ++ [(s.1, some e)] ∧
      (thenAll P steps fin W).2.safeExecCalls = W.safeExecCalls ++ (pre ++ [s]) ∧
      (thenAll P steps fin W).2.log =
        W.log ++ ((pre ++ [s]).map fun x => executingLine x.1) ++
          ["Error while executing query: " ++ e ++ "\n"] ∧
      (thenAll P steps fin W).2.opened = W.opened) ∨
    (∃ W1 : World σ, thenAll P steps fin W = fin W1 ∧
      W1.execTrace = W.execTrace ++ (steps.map fun x => (x.1, none)) ∧
      W1.safeExecCalls = W.safeExecCalls ++ steps ∧
      W1.log = W.log ++ (steps.map fun x => executingLine x.1) ∧
      W1.opened = W.opened) := by
  induction steps generalizing W with
  | nil => exact Or.inr ⟨W, rfl, by simp, by simp, by simp, rfl⟩
  | cons s rest ih =>
    rcases h : (P.exec W.server s.1).2 with _ | e
    · have hs := safeExec_ok P s.1 s.2 W h
      rcases ih { W with server := (P.exec W.server s.1).1,
                         execTrace := W.execTrace ++ [(s.1, none)],
                         safeExecCalls := W.safeExecCalls ++ [(s.1, s.2)],
                         log := W.log ++ [executingLine s.1] } with
        ⟨pre, t, post, e, hsplit, h1, h2, h3, h4, h5⟩ | ⟨W1, h1, h2, h3, h4, h5⟩
      · refine Or.inl ⟨s :: pre, t, post, e, by simp [hsplit], ?_, ?_, ?_, ?_, ?_⟩ <;>
          simp only [thenAll, bind_apply, hs]
        · exact h1
        · simpa using h2
        · simpa using h3
        · simpa using h4
        · exact h5
      · refine Or.inr ⟨W1, ?_, by simpa using h2, by simpa using h3, by simpa using h4, h5⟩
        simp only [thenAll, bind_apply, hs]
        exact h1
    · have hs := safeExec_fail P s.1 s.2 W e h
      refine Or.inl ⟨[], s, rest, e, rfl, ?_, ?_, ?_, ?_, ?_⟩ <;>
        simp [thenAll, bind_apply, hs]

/-! ## The run of `main` -/

theorem printReport_apply {σ : Type} (user dbName password : String) (W : World σ) :
    printReport user dbName password W =
      (Res.ret (), { W with log := W.log ++ successReport user dbName password }) := by
  simp only [printReport, bind_apply, logPrint, successReport, List.append_assoc,
    List.singleton_append, List.cons_append, List.nil_append]

/-- Once the run reaches the statements, the rest of `main` is the chain of the five
`safeExec` calls followed by the report. -/
theorem main_of_reaches {σ : Type} (P : Platform σ) (osArgs : List String) (w : World σ)
    (user dbName : String) (hR : ReachesStatements P osArgs w user dbName) :
    main P osArgs w =
      thenAll P (provisioningSteps user dbName (settingOf P w "DB_admin_user") P.petnameGenerate)
        (printReport user dbName P.petnameGenerate) (afterPrelude P w) := by
  obtain ⟨⟨prog, rfl⟩, hload, hh, hp, hn, hu, hpw, ho, hping⟩ := hR
  simp only [settingOf, connectionStringOf] at hh hp hn hu hpw ho
  simp only [main, bind_apply, pure_apply, godotenvLoad, hload, List.length_cons, List.length_nil,
    ne_eq, not_true_eq_false, if_false, safelyGetEnvVar_ok, hh, hp, hn, hu, hpw, not_false_eq_true,
    sqlOpen, ho, dbPing, hping, List.getD_cons_succ, List.getD_cons_zero,
    thenAll, provisioningSteps, printReport, afterPrelude, settingOf, connectionStringOf,
    createUserStatement, createDatabaseStatement, revokeConnectStatement, grantConnectStatement,
    dropUserStatement, dropDatabaseStatement]

/-- What a run that reaches the statements does: it stops with exit status 1 right after
the first statement the server rejects, or it runs all five and prints the report. -/
theorem main_outcome {σ : Type} (P : Platform σ) (osArgs : List String) (w : World σ)
    (user dbName : String) (hR : ReachesStatements P osArgs w user dbName) :
    (∃ pre s post e,
      provisioningSteps user dbName (settingOf P w "DB_admin_user") P.petnameGenerate =
        pre ++ s :: post ∧
      (main P osArgs w).1 = Res.exit 1 ∧
      (main P osArgs w).2.execTrace =
        w.execTrace ++ (pre.map fun x => (x.1, none)) ++ [(s.1, some e)] ∧
      (main P osArgs w).2.safeExecCalls = w.safeExecCalls ++ (pre ++ [s]) ∧
      (main P osArgs w).2.log =
        w.log ++ ((pre ++ [s]).map fun x => executingLine x.1) ++
          ["Error while executing query: " ++ e ++ "\n"]) ∨
    ((main P osArgs w).1 = Res.ret () ∧
      (main P osArgs w).2.execTrace = w.execTrace ++
        ((provisioningSteps user dbName (settingOf P w "DB_admin_user") P.petnameGenerate).map
          fun x => (x.1, none)) ∧
      (main P osArgs w).2.safeExecCalls = w.safeExecCalls ++
        provisioningSteps user dbName (settingOf P w "DB_admin_user") P.petnameGenerate ∧
      (main P osArgs w).2.log = w.log ++
        ((provisioningSteps user dbName (settingOf P w "DB_admin_user") P.petnameGenerate).map
          fun x => executingLine x.1) ++ successReport user dbName P.petnameGenerate) := by
  rw [main_of_reaches P osArgs w user dbName hR]
  rcases thenAll_outcome P
      (provisioningSteps user dbName (settingOf P w "DB_admin_user") P.petnameGenerate)
      (printReport user dbName P.petnameGenerate) (afterPrelude P w) with
    ⟨pre, s, post, e, hsplit, h1, h2, h3, h4, _⟩ | ⟨W1, h1, h2, h3, h4, _⟩
  · exact Or.inl ⟨pre, s, post, e, hsplit, h1, h2, h3, h4⟩
  · refine Or.inr ?_
    rw [h1, printReport_apply]
    exact ⟨rfl, h2, h3, by simp only [h4]; rfl⟩

theorem ne_empty_of_length {s : String} (h : s.length ≠ 0) : s ≠ "" := by
  rintro rfl
  exact h rfl

/-- A run that reaches the statements has handed exactly one connection string to
`sql.Open`. -/
theorem main_opened_of_reaches {σ : Type} (P : Platform σ) (osArgs : List String) (w : World σ)
    (user dbName : String) (hR : ReachesStatements P osArgs w user dbName) :
    (main P osArgs w).2.opened = w.opened ++ [connectionOf P w] := by
  rw [main_of_reaches P osArgs w user dbName hR]
  rcases thenAll_outcome P
      (provisioningSteps user dbName (settingOf P w "DB_admin_user") P.petnameGenerate)
      (printReport user dbName P.petnameGenerate) (afterPrelude P w) with
    ⟨_, _, _, _, _, _, _, _, _, h5⟩ | ⟨W1, h1, _, _, _, h5⟩
  · rw [h5]
    rfl
  · rw [h1, printReport_apply]
    show W1.opened = _
    rw [h5]
    rfl

/-- A message that starts with a character other than `A`, `C` and `D` is no line of the
success report. -/
theorem not_reportLine_of_head {m : String} {c : Char} (h : m.data.head? = some c)
    (hA : c ≠ 'A') (hC : c ≠ 'C') (hD : c ≠ 'D') : ¬ ReportLine m := by
  rintro ⟨user, dbName, password, hm⟩
  simp only [successReport, List.mem_cons, List.mem_singleton, List.mem_nil_iff,
    or_false] at hm
  rcases hm with rfl | rfl | rfl | rfl
  · exact hA (Option.some.inj h).symm
  · exact hC (Option.some.inj h).symm
  · exact hD (Option.some.inj h).symm
  · exact hC (Option.some.inj h).symm

/-- The second message of the `.env` branch is no line of the success report. -/
theorem assuming_not_reportLine :
    ¬ ReportLine "Assuming process environment has necessary environment variables" := by
  rintro ⟨user, dbName, password, hm⟩
  simp only [successReport, List.mem_cons, List.mem_singleton, List.mem_nil_iff,
    or_false] at hm
  rcases hm with h | h | h | h
  · exact absurd h (by decide)
  · exact absurd (congrArg (fun t : String => t.data.head?) h)
      (show some 'A' ≠ some 'C' by decide)
  · exact absurd (congrArg (fun t : String => t.data.head?) h)
      (show some 'A' ≠ some 'D' by decide)
  · exact absurd (congrArg (fun t : String => t.data.head?) h)
      (show some 'A' ≠ some 'C' by decide)

/-- The line printed before a statement is no line of the success report. -/
theorem executingLine_not_reportLine (q : String) : ¬ ReportLine (executingLine q) :=
  not_reportLine_of_head (c := 'E') rfl (by decide) (by decide) (by decide)

/-- The message of a failed statement is no line of the success report. -/
theorem errorLine_not_reportLine (e : String) :
    ¬ ReportLine ("Error while executing query: " ++ e ++ "\n") :=
  not_reportLine_of_head (c := 'E') rfl (by decide) (by decide) (by decide)

/-- Every run either reaches the statements or stops before the first one: with exit
status 1, nothing sent to the server, no call of `safeExec`, at most three log lines,
none of them a line of the success report unless it is the error text a library call
returned, and `sql.Open` either not called or called with five non-empty settings. -/
theorem main_stops_or_reaches {σ : Type} (P : Platform σ) (osArgs : List String) (w : World σ) :
    ((main P osArgs w).1 = Res.exit 1 ∧
      (main P osArgs w).2.execTrace = w.execTrace ∧
      (main P osArgs w).2.safeExecCalls = w.safeExecCalls ∧
      (∃ l, (main P osArgs w).2.log = w.log ++ l ∧ l.length ≤ 3 ∧
        ∀ m ∈ l, ¬ ReportLine m ∨ IsLibraryError P w m) ∧
      ((main P osArgs w).2.opened = w.opened ∨
        (SettingsPresent P w ∧ (main P osArgs w).2.opened = w.opened ++ [connectionOf P w]))) ∨
    (∃ prog user dbName, osArgs = [prog, user, dbName] ∧
      ReachesStatements P osArgs w user dbName) := by
  by_cases hlen : osArgs.length = 3
  swap
  · refine Or.inl ⟨?_, ?_, ?_, ⟨["Usage: ./[executable name] [username] [database name]"], ?_,
      by simp, List.forall_mem_cons.mpr ⟨Or.inl (not_reportLine_of_head (c := 'U') rfl (by decide) (by decide) (by decide)), fun _ h => absurd h (List.not_mem_nil _)⟩⟩, Or.inl ?_⟩ <;>
    simp only [main, bind_apply, pure_apply, godotenvLoad, List.length_cons, List.length_nil, ne_eq,
      not_true_eq_false, not_false_eq_true, if_false, if_true, logPrint, logFatal, List.append_assoc,
      List.singleton_append, List.cons_append, List.nil_append, settingOf, connectionStringOf,
      connectionOf, hlen]
  obtain ⟨prog, user, dbName, rfl⟩ := List.length_eq_three.mp hlen
  rcases hload : (P.godotenvLoad w.env).2 with _ | e
  swap
  · refine Or.inl ⟨?_, ?_, ?_, ⟨["Failed to load .env file",
      "Assuming process environment has necessary environment variables", e], ?_, by simp,
      List.forall_mem_cons.mpr ⟨Or.inl (not_reportLine_of_head (c := 'F') rfl (by decide) (by decide) (by decide)), List.forall_mem_cons.mpr ⟨Or.inl assuming_not_reportLine, List.forall_mem_cons.mpr ⟨Or.inr (Or.inl hload), fun _ h => absurd h (List.not_mem_nil _)⟩⟩⟩⟩,
      Or.inl ?_⟩ <;>
    simp only [main, bind_apply, pure_apply, godotenvLoad, List.length_cons, List.length_nil, ne_eq,
      not_true_eq_false, not_false_eq_true, if_false, if_true, logPrint, logFatal, List.append_assoc,
      List.singleton_append, List.cons_append, List.nil_append, settingOf, connectionStringOf,
      connectionOf, hload]
  by_cases hh : (settingOf P w "DB_host").length = 0
  · simp only [settingOf] at hh
    refine Or.inl ⟨?_, ?_, ?_, ⟨["Failed to load environment variable: " ++
      ((P.godotenvLoad w.env).1 "DB_host").getD ""], ?_, by simp,
      List.forall_mem_cons.mpr ⟨Or.inl (not_reportLine_of_head (c := 'F') rfl (by decide) (by decide) (by decide)), fun _ h => absurd h (List.not_mem_nil _)⟩⟩, Or.inl ?_⟩ <;>
    simp only [main, bind_apply, pure_apply, godotenvLoad, List.length_cons, List.length_nil, ne_eq,
      not_true_eq_false, not_false_eq_true, if_false, if_true, logPrint, logFatal, List.append_assoc,
      List.singleton_append, List.cons_append, List.nil_append, settingOf, connectionStringOf,
      connectionOf,
      hload, safelyGetEnvVar_fail, safelyGetEnvVar_ok, hh]
  by_cases hp : (settingOf P w "DB_port").length = 0
  · simp only [settingOf] at hh hp
    refine Or.inl ⟨?_, ?_, ?_, ⟨["Failed to load environment variable: " ++
      ((P.godotenvLoad w.env).1 "DB_port").getD ""], ?_, by simp,
      List.forall_mem_cons.mpr ⟨Or.inl (not_reportLine_of_head (c := 'F') rfl (by decide) (by decide) (by decide)), fun _ h => absurd h (List.not_mem_nil _)⟩⟩, Or.inl ?_⟩ <;>
    simp only [main, bind_apply, pure_apply, godotenvLoad, List.length_cons, List.length_nil, ne_eq,
      not_true_eq_false, not_false_eq_true, if_false, if_true, logPrint, logFatal, List.append_assoc,
      List.singleton_append, List.cons_append, List.nil_append, settingOf, connectionStringOf,
      connectionOf,
      hload, safelyGetEnvVar_fail, safelyGetEnvVar_ok, hh, hp]
  by_cases hn : (settingOf P w "DB_name").length = 0
  · simp only [settingOf] at hh hp hn
    refine Or.inl ⟨?_, ?_, ?_, ⟨["Failed to load environment variable: " ++
      ((P.godotenvLoad w.env).1 "DB_name").getD ""], ?_, by simp,
      List.forall_mem_cons.mpr ⟨Or.inl (not_reportLine_of_head (c := 'F') rfl (by decide) (by decide) (by decide)), fun _ h => absurd h (List.not_mem_nil _)⟩⟩, Or.inl ?_⟩ <;>
    simp only [main, bind_apply, pure_apply, godotenvLoad, List.length_cons, List.length_nil, ne_eq,
      not_true_eq_false, not_false_eq_true, if_false, if_true, logPrint, logFatal, List.append_assoc,
      List.singleton_append, List.cons_append, List.nil_append, settingOf, connectionStringOf,
      connectionOf,
      hload, safelyGetEnvVar_fail, safelyGetEnvVar_ok, hh, hp, hn]
  by_cases hu : (settingOf P w "DB_admin_user").length = 0
  · simp only [settingOf] at hh hp hn hu
    refine Or.inl ⟨?_, ?_, ?_, ⟨["Failed to load environment variable: " ++
      ((P.godotenvLoad w.env).1 "DB_admin_user").getD ""], ?_, by simp,
      List.forall_mem_cons.mpr ⟨Or.inl (not_reportLine_of_head (c := 'F') rfl (by decide) (by decide) (by decide)), fun _ h => absurd h (List.not_mem_nil _)⟩⟩, Or.inl ?_⟩ <;>
    simp only [main, bind_apply, pure_apply, godotenvLoad, List.length_cons, List.length_nil, ne_eq,
      not_true_eq_false, not_false_eq_true, if_false, if_true, logPrint, logFatal, List.append_assoc,
      List.singleton_append, List.cons_append, List.nil_append, settingOf, connectionStringOf,
      connectionOf,
      hload, safelyGetEnvVar_fail, safelyGetEnvVar_ok, hh, hp, hn, hu]
  by_cases hpw : (settingOf P w "DB_admin_password").length = 0
  · simp only [settingOf] at hh hp hn hu hpw
    refine Or.inl ⟨?_, ?_, ?_, ⟨["Failed to load environment variable: " ++
      ((P.godotenvLoad w.env).1 "DB_admin_password").getD ""], ?_, by simp,
      List.forall_mem_cons.mpr ⟨Or.inl (not_reportLine_of_head (c := 'F') rfl (by decide) (by decide) (by decide)), fun _ h => absurd h (List.not_mem_nil _)⟩⟩, Or.inl ?_⟩ <;>
    simp only [main, bind_apply, pure_apply, godotenvLoad, List.length_cons, List.length_nil, ne_eq,
      not_true_eq_false, not_false_eq_true, if_false, if_true, logPrint, logFatal, List.append_assoc,
      List.singleton_append, List.cons_append, List.nil_append, settingOf, connectionStringOf,
      connectionOf,
      hload, safelyGetEnvVar_fail, safelyGetEnvVar_ok, hh, hp, hn, hu, hpw]
  have hwf : SettingsPresent P w :=
    ⟨ne_empty_of_length hh, ne_empty_of_length hp, ne_empty_of_length hn,
      ne_empty_of_length hu, ne_empty_of_length hpw⟩
  rcases ho : P.sqlOpen (connectionStringOf (settingOf P w "DB_host")
      (settingOf P w "DB_port") (settingOf P w "DB_admin_user")
      (settingOf P w "DB_admin_password") (settingOf P w "DB_name")) with _ | e
  swap
  · have ho1 := ho
    simp only [settingOf, connectionStringOf] at hh hp hn hu hpw ho1
    refine Or.inl ⟨?_, ?_, ?_, ⟨[e], ?_, by simp,
      List.forall_mem_cons.mpr ⟨Or.inr (Or.inr (Or.inl ho)), fun _ h => absurd h (List.not_mem_nil _)⟩⟩, Or.inr ⟨hwf, ?_⟩⟩ <;>
    simp only [main, bind_apply, pure_apply, godotenvLoad, List.length_cons, List.length_nil, ne_eq,
      not_true_eq_false, not_false_eq_true, if_false, if_true, logPrint, logFatal, List.append_assoc,
      List.singleton_append, List.cons_append, List.nil_append, settingOf, connectionStringOf,
      connectionOf,
      hload, safelyGetEnvVar_ok, hh, hp, hn, hu, hpw, sqlOpen, ho1]
  rcases hping : (P.ping w.server).2 with _ | e
  swap
  · have ho1 := ho
    simp only [settingOf, connectionStringOf] at hh hp hn hu hpw ho1
    refine Or.inl ⟨?_, ?_, ?_, ⟨["Failed to ping database", e], ?_, by simp,
      List.forall_mem_cons.mpr ⟨Or.inl (not_reportLine_of_head (c := 'F') rfl (by decide) (by decide) (by decide)), List.forall_mem_cons.mpr ⟨Or.inr (Or.inr (Or.inr hping)), fun _ h => absurd h (List.not_mem_nil _)⟩⟩⟩,
      Or.inr ⟨hwf, ?_⟩⟩ <;>
    simp only [main, bind_apply, pure_apply, godotenvLoad, List.length_cons, List.length_nil, ne_eq,
      not_true_eq_false, not_false_eq_true, if_false, if_true, logPrint, logFatal, List.append_assoc,
      List.singleton_append, List.cons_append, List.nil_append, settingOf, connectionStringOf,
      connectionOf,
      hload, safelyGetEnvVar_ok, hh, hp, hn, hu, hpw, sqlOpen, ho1, dbPing, hping]
  exact Or.inr ⟨prog, user, dbName, rfl, ⟨⟨prog, rfl⟩, hload, hh, hp, hn, hu, hpw, ho, hping⟩⟩

/-! ## Reading off what a run added -/

theorem executed_eq {σ : Type} {P : Platform σ} {osArgs : List String} {w : World σ}
    {t : List (String × Option String)} (h : (main P osArgs w).2.execTrace = w.execTrace ++ t) :
    executed P osArgs w = t := by
  simp [executed, h]

theorem called_eq {σ : Type} {P : Platform σ} {osArgs : List String} {w : World σ}
    {t : List (String × List String)}
    (h : (main P osArgs w).2.safeExecCalls = w.safeExecCalls ++ t) :
    called P osArgs w = t := by
  simp [called, h]

theorem logged_eq {σ : Type} {P : Platform σ} {osArgs : List String} {w : World σ}
    {t : List String} (h : (main P osArgs w).2.log = w.log ++ t) :
    logged P osArgs w = t := by
  simp [logged, h]

theorem connections_eq {σ : Type} {P : Platform σ} {osArgs : List String} {w : World σ}
    {t : List String} (h : (main P osArgs w).2.opened = w.opened ++ t) :
    connections P osArgs w = t := by
  simp [connections, h]

/-- In a trace whose entries all succeeded except the last one, a failed entry is the
last one. -/
theorem failed_entry_is_last {l p q : List (String × Option String)}
    {x y : String × Option String} (hl : ∀ z ∈ l, z.2 = none)
    (h : l ++ [y] = p ++ x :: q) (hx : x.2 ≠ none) : q = [] := by
  rcases List.append_eq_append_iff.mp h with ⟨a, -, ha⟩ | ⟨c, hc, hc2⟩
  · rcases a with _ | ⟨a0, a1⟩
    · have h2 : x = y ∧ q = [] := by simpa using ha.symm
      exact h2.2
    · simp at ha
  · rcases c with _ | ⟨c0, c1⟩
    · have h2 : x = y ∧ q = [] := by simpa using hc2
      exact h2.2
    · have hxc : x = c0 := by simpa using (List.cons_eq_cons.mp hc2).1
      exact absurd (hl x (by simp [hc, hxc])) hx

/-- A string that starts with a character other than `D` is no `DROP` statement. -/
theorem not_drop_of_head {s : String} {c : Char} (h : s.data.head? = some c) (hc : c ≠ 'D') :
    isDropStatement s = false := by
  rcases hs : s.data with _ | ⟨a, t⟩
  · simp [hs] at h
  · simp only [hs, List.head?_cons, Option.some.injEq] at h
    subst h
    simp only [isDropStatement, hs]
    simp only [List.isPrefixOf, Bool.and_eq_false_imp, beq_iff_eq]
    intro h
    exact absurd h.symm hc

theorem provisioningStatements_not_drop (user dbName admin password : String) :
    ∀ q ∈ provisioningStatements user dbName admin password, isDropStatement q = false := by
  intro q hq
  simp only [provisioningStatements, List.mem_cons, List.mem_singleton, List.mem_nil_iff,
    or_false] at hq
  rcases hq with rfl | rfl | rfl | rfl | rfl
  · exact not_drop_of_head (c := 'C') rfl (by decide)
  · exact not_drop_of_head (c := 'C') rfl (by decide)
  · exact not_drop_of_head (c := 'R') rfl (by decide)
  · exact not_drop_of_head (c := 'G') rfl (by decide)
  · exact not_drop_of_head (c := 'G') rfl (by decide)

theorem provisioningSteps_statements (user dbName admin password : String) :
    (provisioningSteps user dbName admin password).map Prod.fst =
      provisioningStatements user dbName admin password := rfl

/-- The arguments of a run that reaches the statements. -/
theorem args_of_reaches {σ : Type} {P : Platform σ} {osArgs : List String} {w : World σ}
    {user dbName : String} (hR : ReachesStatements P osArgs w user dbName) :
    osArgs.getD 1 "" = user ∧ osArgs.getD 2 "" = dbName := by
  obtain ⟨prog, rfl⟩ := hR.args
  exact ⟨rfl, rfl⟩

/-- The last message of the report is not the message of a failed statement. -/
theorem report_line_ne_error_line (qDb e : String) :
    "Created database " ++ qDb ++ "\n" ≠ "Error while executing query: " ++ e ++ "\n" := by
  intro h
  have h2 := congrArg (fun s : String => s.data.head?) h
  exact absurd h2 (by
    show some 'C' ≠ some 'E'
    decide)

/-! ## Quoting -/

theorem getLast?_ne_of_cons {x : Char} {l : List Char}
    (h : (x :: l).getLast? ≠ some '"') : l.getLast? ≠ some '"' := by
  rcases l with _ | ⟨y, l⟩
  · simp
  · simpa [List.getLast?_cons_cons] using h

/-- Doubling the double quotes leaves only runs of even length. -/
theorem escapeQuotes_evenQuoteRuns (name : List Char) : EvenQuoteRuns (escapeQuotes name) := by
  induction name with
  | nil =>
    intro pre k post h _ _
    have h2 := congrArg List.length h
    simp only [escapeQuotes, List.length_nil, List.length_append, List.length_replicate] at h2
    have hk : k = 0 := by omega
    rw [hk]
    exact even_zero
  | cons c cs ih =>
    intro pre k post h hpre hpost
    by_cases hc : c = '"'
    · subst hc
      simp only [escapeQuotes, if_true] at h
      rcases pre with _ | ⟨x, pre⟩
      · rcases k with _ | _ | k
        · exact even_zero
        · exfalso
          simp only [List.nil_append, List.replicate_succ, List.replicate_zero,
            List.cons_append, List.cons.injEq, true_and] at h
          rw [← h] at hpost
          simp at hpost
        · simp only [List.nil_append, List.replicate_succ, List.cons_append,
            List.cons.injEq, true_and] at h
          have hk : Even k := ih [] k post (by simpa using h) (by simp) hpost
          exact hk.add even_two
      · rcases pre with _ | ⟨y, pre⟩
        · exfalso
          simp only [List.cons_append, List.cons.injEq] at h
          exact hpre (by simp [← h.1])
        · simp only [List.cons_append, List.cons.injEq] at h
          have hy : (y :: pre).getLast? ≠ some '"' := getLast?_ne_of_cons hpre
          rcases pre with _ | ⟨z, pre⟩
          · exfalso
            exact hy (by simp [← h.2.1])
          · exact ih (z :: pre) k post (by simpa using h.2.2) (getLast?_ne_of_cons hy) hpost
    · simp only [escapeQuotes, hc, if_false] at h
      rcases pre with _ | ⟨x, pre⟩
      · rcases k with _ | k
        · exact even_zero
        · exfalso
          simp only [List.nil_append, List.replicate_succ, List.cons_append,
            List.cons.injEq] at h
          exact hc h.1
      · simp only [List.cons_append, List.cons.injEq] at h
        exact ih pre k post (by simpa using h.2) (getLast?_ne_of_cons hpre) hpost

/-- Read back, the quoted form gives the name and stops at its closing quote. -/
theorem readQuotedIdentifier_escapeQuotes (name rest : List Char)
    (hrest : rest.head? ≠ some '"') :
    readQuotedIdentifier (escapeQuotes name ++ '"' :: rest) = some (name, rest) := by
  induction name with
  | nil =>
    rcases rest with _ | ⟨d, ds⟩
    · simp [escapeQuotes, readQuotedIdentifier]
    · have hd : d ≠ '"' := by simpa using hrest
      simp [escapeQuotes, readQuotedIdentifier, hd]
  | cons c cs ih =>
    by_cases hc : c = '"'
    · subst hc
      simp [escapeQuotes, readQuotedIdentifier, ih]
    · rw [escapeQuotes, if_neg hc, List.cons_append, readQuotedIdentifier.eq_def]
      simp only [hc, if_false, ih]
      rfl

/-- The quoted form: an opening quote, the name with its quotes doubled, a closing quote. -/
theorem QuoteIdentifier_data (name : String) :
    (QuoteIdentifier name).data = '"' :: (escapeQuotes name.data ++ ['"']) := rfl

/-- The `safeExec` calls of a run are an initial part of the five steps. -/
theorem called_prefix_steps {σ : Type} (P : Platform σ) (osArgs : List String) (w : World σ) :
    called P osArgs w <+: provisioningSteps (osArgs.getD 1 "") (osArgs.getD 2 "")
      (settingOf P w "DB_admin_user") P.petnameGenerate := by
  rcases main_stops_or_reaches P osArgs w with ⟨-, -, h3, -, -⟩ | ⟨prog, user, dbName, -, hR⟩
  · rw [called_eq (t := []) (by rw [h3, List.append_nil])]
    exact List.nil_prefix
  · obtain ⟨hu, hd⟩ := args_of_reaches hR
    rw [hu, hd]
    rcases main_outcome P osArgs w user dbName hR with
      ⟨pre, s, post, e, hsplit, -, -, h3, -⟩ | ⟨-, -, h3, -⟩
    · rw [called_eq h3, hsplit]
      exact ⟨post, by simp⟩
    · rw [called_eq h3]

theorem length_eq_zero_iff_empty (s : String) : s.length = 0 ↔ s = "" := by
  constructor
  · intro h
    have hd : s.data = [] := List.length_eq_zero.mp h
    exact String.ext hd
  · rintro rfl
    rfl

/-! ## The claims -/

theorem sample_reaches (rejected : List String) :
    ReachesStatements (samplePlatform none rejected) ["provision", "alice", "projects"]
      (startWorld sampleEnv) "alice" "projects" :=
  ⟨⟨"provision", rfl⟩, rfl,
    (by decide : "localhost".length ≠ 0), (by decide : "5432".length ≠ 0),
    (by decide : "postgres".length ≠ 0), (by decide : "admin".length ≠ 0),
    (by decide : "secret".length ≠ 0), rfl, rfl⟩

/-- C3: when the run reaches the statements and the server rejects `CREATE USER`, the run
sends that one statement and nothing else, so no rollback statement (no `DROP USER`, no
`DROP DATABASE`) reaches the server, and the process exits with status 1. -/
theorem create_user_failure_runs_no_rollback {σ : Type} (P : Platform σ)
    (osArgs : List String) (w : World σ) (user dbName e : String)
    (hR : ReachesStatements P osArgs w user dbName)
    (hfail : (P.exec (afterPrelude P w).server
      (createUserStatement (QuoteIdentifier user) P.petnameGenerate)).2 = some e) :
    executed P osArgs w =
        [(createUserStatement (QuoteIdentifier user) P.petnameGenerate, some e)] ∧
      called P osArgs w = [(createUserStatement (QuoteIdentifier user) P.petnameGenerate, [])] ∧
      (main P osArgs w).1 = Res.exit 1 ∧
      ∀ x ∈ executed P osArgs w, isDropStatement x.1 = false := by
  have hm := main_of_reaches P osArgs w user dbName hR
  have hs := safeExec_fail P _ [] (afterPrelude P w) e hfail
  have hrun : main P osArgs w = (Res.exit 1,
      { afterPrelude P w with
        server := (P.exec (afterPrelude P w).server
          (createUserStatement (QuoteIdentifier user) P.petnameGenerate)).1,
        execTrace := w.execTrace ++
          [(createUserStatement (QuoteIdentifier user) P.petnameGenerate, some e)],
        safeExecCalls := w.safeExecCalls ++
          [(createUserStatement (QuoteIdentifier user) P.petnameGenerate, [])],
        log := w.log ++
          [executingLine (createUserStatement (QuoteIdentifier user) P.petnameGenerate),
            "Error while executing query: " ++ e ++ "\n"] }) := by
    rw [hm]
    simp only [provisioningSteps, thenAll, bind_apply, hs]
    rfl
  have hex : executed P osArgs w =
      [(createUserStatement (QuoteIdentifier user) P.petnameGenerate, some e)] :=
    executed_eq (by rw [hrun])
  refine ⟨hex, called_eq (by rw [hrun]), by rw [hrun], ?_⟩
  intro x hx
  rw [hex, List.mem_singleton] at hx
  subst hx
  exact not_drop_of_head (c := 'C') rfl (by decide)

/-- C3, at a concrete input: the server rejects `CREATE USER "alice"`. -/
theorem create_user_failure_runs_no_rollback_witness :
    executed (samplePlatform none
        ["CREATE USER \"alice\" NOSUPERUSER NOCREATEDB NOCREATEROLE NOINHERIT PASSWORD 'wiredcat';"])
        ["provision", "alice", "projects"] (startWorld sampleEnv) =
      [(createUserStatement (QuoteIdentifier "alice") "wiredcat", some "rejected")] ∧
    (main (samplePlatform none
        ["CREATE USER \"alice\" NOSUPERUSER NOCREATEDB NOCREATEROLE NOINHERIT PASSWORD 'wiredcat';"])
        ["provision", "alice", "projects"] (startWorld sampleEnv)).1 = Res.exit 1 :=
  have h := create_user_failure_runs_no_rollback (samplePlatform none
        ["CREATE USER \"alice\" NOSUPERUSER NOCREATEDB NOCREATEROLE NOINHERIT PASSWORD 'wiredcat';"])
      ["provision", "alice", "projects"] (startWorld sampleEnv) "alice" "projects" "rejected"
      (sample_reaches _) (by decide)
  ⟨h.1, h.2.2.1⟩

/-- C4: the `safeExec` calls of a run are an initial part of the five steps with their
rollback lists (nothing for `CREATE USER`, the user drop for `CREATE DATABASE`, the
database drop then the user drop for the `REVOKE` and both `GRANT`s, each over the same
quoted names as the `CREATE` statements); a run that returns has made all five; a step is
called after each statement and only while every earlier statement succeeded. -/
theorem rollback_lists_follow_the_steps {σ : Type} (P : Platform σ) (osArgs : List String)
    (w : World σ) :
    called P osArgs w <+: provisioningSteps (osArgs.getD 1 "") (osArgs.getD 2 "")
        (settingOf P w "DB_admin_user") P.petnameGenerate ∧
      ((main P osArgs w).1 = Res.ret () →
        called P osArgs w = provisioningSteps (osArgs.getD 1 "") (osArgs.getD 2 "")
          (settingOf P w "DB_admin_user") P.petnameGenerate) ∧
      (called P osArgs w).map Prod.fst = (executed P osArgs w).map Prod.fst ∧
      ∀ x ∈ (executed P osArgs w).dropLast, x.2 = none := by
  rcases main_stops_or_reaches P osArgs w with ⟨h1, h2, h3, -, -⟩ | ⟨prog, user, dbName, -, hR⟩
  · have hc : called P osArgs w = [] := called_eq (by rw [h3, List.append_nil])
    have he : executed P osArgs w = [] := executed_eq (by rw [h2, List.append_nil])
    rw [hc, he]
    refine ⟨List.nil_prefix, ?_, rfl, by simp⟩
    intro hret
    rw [h1] at hret
    exact absurd hret (by simp)
  · obtain ⟨hu, hd⟩ := args_of_reaches hR
    rw [hu, hd]
    rcases main_outcome P osArgs w user dbName hR with
      ⟨pre, s, post, e, hsplit, h1, h2, h3, -⟩ | ⟨h1, h2, h3, -⟩
    · have hc : called P osArgs w = pre ++ [s] := called_eq h3
      have he : executed P osArgs w = (pre.map fun x => (x.1, none)) ++ [(s.1, some e)] :=
        executed_eq (by rw [h2, List.append_assoc])
      rw [hc, he, hsplit]
      refine ⟨⟨post, by simp⟩, ?_, by simp [Function.comp_def], ?_⟩
      · intro hret
        rw [h1] at hret
        exact absurd hret (by simp)
      · intro x hx
        rw [List.dropLast_concat] at hx
        obtain ⟨y, -, rfl⟩ := List.mem_map.mp hx
        rfl
    · have hc := called_eq h3
      have he := executed_eq h2
      rw [hc, he]
      refine ⟨List.prefix_refl _, fun _ => rfl, by simp [Function.comp_def], ?_⟩
      intro x hx
      obtain ⟨y, -, rfl⟩ := List.mem_map.mp (List.mem_of_mem_dropLast hx)
      rfl

/-- C5: when the run reaches the statements and every statement it sends succeeds, it
sends exactly the five statements, in order (`CREATE USER`, `CREATE DATABASE`, `REVOKE`,
`GRANT` to the user, `GRANT` to the admin user), none of them a `DROP`, and returns. -/
theorem success_path_runs_five_statements {σ : Type} (P : Platform σ)
    (osArgs : List String) (w : World σ) (user dbName : String)
    (hR : ReachesStatements P osArgs w user dbName)
    (hok : ∀ x ∈ executed P osArgs w, x.2 = none) :
    (executed P osArgs w).map Prod.fst =
        provisioningStatements user dbName (settingOf P w "DB_admin_user") P.petnameGenerate ∧
      (main P osArgs w).1 = Res.ret () ∧
      ∀ x ∈ executed P osArgs w, isDropStatement x.1 = false := by
  rcases main_outcome P osArgs w user dbName hR with
    ⟨pre, s, post, e, -, -, h2, -, -⟩ | ⟨h1, h2, -, -⟩
  · have hex := executed_eq (by rw [h2, List.append_assoc])
    have := hok (s.1, some e) (by simp [hex])
    simp at this
  · have hex := executed_eq h2
    have hmap : (executed P osArgs w).map Prod.fst =
        provisioningStatements user dbName (settingOf P w "DB_admin_user")
          P.petnameGenerate := by
      rw [hex, List.map_map, ← provisioningSteps_statements]
      rfl
    refine ⟨hmap, h1, ?_⟩
    intro x hx
    exact provisioningStatements_not_drop _ _ _ _ x.1
      (hmap ▸ List.mem_map_of_mem Prod.fst hx)

/-- C5, at a concrete input: the server accepts every statement. -/
theorem success_path_runs_five_statements_witness :
    (executed (samplePlatform none []) ["provision", "alice", "projects"]
        (startWorld sampleEnv)).map Prod.fst =
      [ "CREATE USER \"alice\" NOSUPERUSER NOCREATEDB NOCREATEROLE NOINHERIT PASSWORD 'wiredcat';",
        "CREATE DATABASE \"projects\" WITH OWNER = \"alice\";",
        "REVOKE CONNECT ON DATABASE \"projects\" FROM PUBLIC;",
        "GRANT connect ON DATABASE \"projects\" TO \"alice\";",
        "GRANT connect ON DATABASE \"projects\" TO \"admin\";" ] ∧
    (main (samplePlatform none []) ["provision", "alice", "projects"]
        (startWorld sampleEnv)).1 = Res.ret () :=
  have h := success_path_runs_five_statements (samplePlatform none [])
      ["provision", "alice", "projects"] (startWorld sampleEnv) "alice" "projects"
      (sample_reaches _) (by decide)
  ⟨h.1.trans (by decide), h.2.1⟩

/-- C6: every statement a run builds, the five statements and the rollback statements
alike, is one of the fixed texts around the quoted user name, database name and admin
user name; the quoted form of a name is an opening double quote, the name with each
double quote doubled, and a closing double quote; inside the outer quotes every run of
double quotes has even length; and read back as SQL, the quoted form followed by anything
that does not start with a double quote yields the name and ends at its closing quote. -/
theorem identifiers_are_quoted {σ : Type} (P : Platform σ) (osArgs : List String)
    (w : World σ) :
    (∀ c ∈ called P osArgs w, ∀ q ∈ c.1 :: c.2,
        q ∈ builtStatements (osArgs.getD 1 "") (osArgs.getD 2 "")
          (settingOf P w "DB_admin_user") P.petnameGenerate) ∧
      ∀ name : String,
        (QuoteIdentifier name).data = '"' :: (escapeQuotes name.data ++ ['"']) ∧
        EvenQuoteRuns (escapeQuotes name.data) ∧
        ∀ rest : List Char, rest.head? ≠ some '"' →
          readQuotedIdentifier ((QuoteIdentifier name).data.tail ++ rest) =
            some (name.data, rest) := by
  refine ⟨?_, fun name => ⟨rfl, escapeQuotes_evenQuoteRuns _, fun rest hrest => ?_⟩⟩
  · intro c hc q hq
    have hmem := (called_prefix_steps P osArgs w).subset hc
    simp only [provisioningSteps, List.mem_cons, List.mem_singleton, List.mem_nil_iff,
      or_false] at hmem
    rcases hmem with rfl | rfl | rfl | rfl | rfl <;>
      simp only [List.mem_cons, List.mem_singleton, List.mem_nil_iff, or_false] at hq <;>
      rcases hq with rfl | rfl | rfl <;>
      simp [builtStatements, provisioningStatements]
  · have h := readQuotedIdentifier_escapeQuotes name.data rest hrest
    rw [QuoteIdentifier_data]
    simpa using h

/-- C7: in every run, a statement that fails is the last statement sent and the process
exits with status 1; the statements sent are an initial part of the five, in order; the
log of the run ends with the success report exactly when the run returned, which is
exactly when all five statements were sent and each succeeded; the log of a run in which
a statement failed holds no line of the success report at all; in any run, a line of the
report is in the log only when all five statements succeeded, or else it is the error
text `godotenv.Load`, `sql.Open` or `db.Ping` returned and `log.Fatal` printed; and a run
that returns has logged the five statement lines followed by the report, nothing else. -/
theorem failure_ends_the_run {σ : Type} (P : Platform σ) (osArgs : List String)
    (w : World σ) :
    (∀ pre x post, executed P osArgs w = pre ++ x :: post → x.2 ≠ none →
        post = [] ∧ (main P osArgs w).1 = Res.exit 1) ∧
      (executed P osArgs w).map Prod.fst <+: provisioningStatements (osArgs.getD 1 "")
        (osArgs.getD 2 "") (settingOf P w "DB_admin_user") P.petnameGenerate ∧
      ((main P osArgs w).1 = Res.ret () ∨ (main P osArgs w).1 = Res.exit 1) ∧
      ((main P osArgs w).1 = Res.ret () ↔
        ((executed P osArgs w).length = 5 ∧ ∀ x ∈ executed P osArgs w, x.2 = none)) ∧
      (successReport (osArgs.getD 1 "") (osArgs.getD 2 "") P.petnameGenerate <:+
          logged P osArgs w ↔
        ((executed P osArgs w).length = 5 ∧ ∀ x ∈ executed P osArgs w, x.2 = none)) ∧
      ((∃ x ∈ executed P osArgs w, x.2 ≠ none) →
        ∀ m ∈ logged P osArgs w, ¬ ReportLine m) ∧
      (∀ m ∈ logged P osArgs w, ReportLine m →
        ((executed P osArgs w).length = 5 ∧ ∀ x ∈ executed P osArgs w, x.2 = none) ∨
          IsLibraryError P w m) ∧
      ((main P osArgs w).1 = Res.ret () →
        logged P osArgs w =
          (provisioningStatements (osArgs.getD 1 "") (osArgs.getD 2 "")
            (settingOf P w "DB_admin_user") P.petnameGenerate).map executingLine ++
          successReport (osArgs.getD 1 "") (osArgs.getD 2 "") P.petnameGenerate) := by
  rcases main_stops_or_reaches P osArgs w with
    ⟨h1, h2, -, ⟨l, hl, hlen, hlib⟩, -⟩ | ⟨prog, user, dbName, -, hR⟩
  · have he : executed P osArgs w = [] := executed_eq (by rw [h2, List.append_nil])
    have hlog : logged P osArgs w = l := logged_eq hl
    rw [he, hlog, h1]
    refine ⟨?_, List.nil_prefix, Or.inr rfl, ?_, ?_, ?_, ?_, ?_⟩
    · intro pre x post h
      simp at h
    · simp
    · constructor
      · intro hsuf
        have := hsuf.length_le
        simp [successReport] at this
        omega
      · simp
    · rintro ⟨x, hx, -⟩
      exact absurd hx (List.not_mem_nil x)
    · intro m hm hrep
      rcases hlib m hm with hno | hlibm
      · exact absurd hrep hno
      · exact Or.inr hlibm
    · intro hret
      exact absurd hret (by simp)
  · obtain ⟨hu, hd⟩ := args_of_reaches hR
    rw [hu, hd]
    rcases main_outcome P osArgs w user dbName hR with
      ⟨pre, s, post, e, hsplit, h1, h2, -, h4⟩ | ⟨h1, h2, -, h4⟩
    · have he : executed P osArgs w = (pre.map fun x => (x.1, none)) ++ [(s.1, some e)] :=
        executed_eq (by rw [h2, List.append_assoc])
      have hlog : logged P osArgs w = ((pre ++ [s]).map fun x => executingLine x.1) ++
          ["Error while executing query: " ++ e ++ "\n"] :=
        logged_eq (by rw [h4, List.append_assoc])
      have hbad : ¬ ((executed P osArgs w).length = 5 ∧
          ∀ x ∈ executed P osArgs w, x.2 = none) := by
        rintro ⟨-, hall⟩
        have := hall (s.1, some e) (by simp [he])
        simp at this
      have hnorep : ∀ m ∈ logged P osArgs w, ¬ ReportLine m := by
        intro m hm
        rw [hlog] at hm
        rcases List.mem_append.mp hm with hm1 | hm2
        · obtain ⟨y, -, rfl⟩ := List.mem_map.mp hm1
          exact executingLine_not_reportLine _
        · rw [List.mem_singleton.mp hm2]
          exact errorLine_not_reportLine e
      refine ⟨?_, ?_, Or.inr h1, ?_, ?_, fun _ => hnorep,
        fun m hm hrep => absurd hrep (hnorep m hm), ?_⟩
      rotate_right
      · intro hret
        rw [h1] at hret
        exact absurd hret (by simp)
      · intro p x q hx hne
        rw [he] at hx
        refine ⟨failed_entry_is_last ?_ hx hne, h1⟩
        intro z hz
        obtain ⟨y, -, rfl⟩ := List.mem_map.mp hz
        rfl
      · rw [he, ← provisioningSteps_statements, hsplit]
        exact ⟨post.map Prod.fst, by simp [Function.comp_def]⟩
      · rw [h1]
        constructor
        · intro h
          exact absurd h (by simp)
        · intro h
          exact absurd h hbad
      · constructor
        · intro hsuf
          exfalso
          rw [hlog] at hsuf
          obtain ⟨t, ht⟩ := hsuf
          have h5 := congrArg List.getLast? ht
          simp [successReport] at h5
          exact report_line_ne_error_line _ _ h5
        · intro h
          exact absurd h hbad
    · have he := executed_eq h2
      have hlog : logged P osArgs w = ((provisioningSteps user dbName
          (settingOf P w "DB_admin_user") P.petnameGenerate).map fun x => executingLine x.1) ++
          successReport user dbName P.petnameGenerate :=
        logged_eq (by rw [h4, List.append_assoc])
      have hgood : (executed P osArgs w).length = 5 ∧
          ∀ x ∈ executed P osArgs w, x.2 = none := by
        rw [he]
        refine ⟨by simp [provisioningSteps], ?_⟩
        intro x hx
        obtain ⟨y, -, rfl⟩ := List.mem_map.mp hx
        rfl
      refine ⟨?_, ?_, Or.inl h1, ?_, ?_, ?_, fun _ _ _ => Or.inl hgood, ?_⟩
      rotate_right 2
      · rintro ⟨x, hx, hne⟩
        exact absurd (hgood.2 x hx) hne
      · intro _
        rw [hlog, ← provisioningSteps_statements, List.map_map]
        rfl
      · intro p x q hx hne
        exact absurd (hgood.2 x (by simp [hx])) hne
      · rw [he, List.map_map, ← provisioningSteps_statements]
        exact List.prefix_refl _
      · exact ⟨fun _ => hgood, fun _ => h1⟩
      · refine ⟨fun _ => hgood, fun _ => ?_⟩
        rw [hlog]
        exact List.suffix_append _ _

/-- C8: `safelyGetEnvVar` returns a non-empty value as it is and leaves the world alone;
for a variable that is unset or empty it exits with status 1; and a run of `main` hands
`sql.Open` either nothing or one connection string, built from five settings none of
which is empty. -/
theorem settings_are_required {σ : Type} (P : Platform σ) (osArgs : List String)
    (w : World σ) (varName : String) :
    (∀ v : String, w.env varName = some v → v ≠ "" →
        (safelyGetEnvVar varName : Prog σ String) w = (Res.ret v, w)) ∧
      ((w.env varName = none ∨ w.env varName = some "") →
        ((safelyGetEnvVar varName : Prog σ String) w).1 = Res.exit 1) ∧
      (connections P osArgs w = [] ∨
        (connections P osArgs w =
            [connectionStringOf (settingOf P w "DB_host") (settingOf P w "DB_port")
              (settingOf P w "DB_admin_user") (settingOf P w "DB_admin_password")
              (settingOf P w "DB_name")] ∧
          settingOf P w "DB_host" ≠ "" ∧ settingOf P w "DB_port" ≠ "" ∧
          settingOf P w "DB_name" ≠ "" ∧ settingOf P w "DB_admin_user" ≠ "" ∧
          settingOf P w "DB_admin_password" ≠ "")) := by
  refine ⟨?_, ?_, ?_⟩
  · intro v hv hne
    have hlen : ((w.env varName).getD "").length ≠ 0 := by
      rw [hv]
      exact fun h => hne ((length_eq_zero_iff_empty v).mp h)
    rw [safelyGetEnvVar_ok varName w hlen, hv]
    rfl
  · intro h
    have hlen : ((w.env varName).getD "").length = 0 := by
      rcases h with h | h <;> rw [h] <;> rfl
    rw [safelyGetEnvVar_fail varName w hlen]
  · rcases main_stops_or_reaches P osArgs w with
      ⟨-, -, -, -, h | ⟨hs, h⟩⟩ | ⟨prog, user, dbName, -, hR⟩
    · exact Or.inl (connections_eq (by rw [h, List.append_nil]))
    · exact Or.inr ⟨connections_eq h, hs⟩
    · refine Or.inr ⟨connections_eq (main_opened_of_reaches P osArgs w user dbName hR), ?_⟩
      exact ⟨ne_empty_of_length hR.host, ne_empty_of_length hR.port,
        ne_empty_of_length hR.name, ne_empty_of_length hR.adminUser,
        ne_empty_of_length hR.adminPassword⟩

/-! ## Where the code departs from its documentation -/

/-- C1, the code at a failing input: `safeExec` is given a `CREATE DATABASE` the server
rejects and the rollback list `DROP USER "alice"`.  The process exits with status 1
having sent the rejected statement only; the rollback statement is never sent and the
rollback is never announced in the log. -/
theorem safeExec_exits_before_rollback :
    (safeExec (samplePlatform none ["CREATE DATABASE \"projects\" WITH OWNER = \"alice\";"])
        "CREATE DATABASE \"projects\" WITH OWNER = \"alice\";" ["DROP USER \"alice\";"]
        (startWorld sampleEnv)).1 = Res.exit 1 ∧
      (safeExec (samplePlatform none ["CREATE DATABASE \"projects\" WITH OWNER = \"alice\";"])
        "CREATE DATABASE \"projects\" WITH OWNER = \"alice\";" ["DROP USER \"alice\";"]
        (startWorld sampleEnv)).2.execTrace =
        [("CREATE DATABASE \"projects\" WITH OWNER = \"alice\";", some "rejected")] ∧
      (safeExec (samplePlatform none ["CREATE DATABASE \"projects\" WITH OWNER = \"alice\";"])
        "CREATE DATABASE \"projects\" WITH OWNER = \"alice\";" ["DROP USER \"alice\";"]
        (startWorld sampleEnv)).2.log =
        [ "Executing query: CREATE DATABASE \"projects\" WITH OWNER = \"alice\";\n",
          "Error while executing query: rejected\n" ] := by
  decide

/-- C2, the code at two failing inputs.  When the server rejects `CREATE DATABASE`, the
run sends `CREATE USER` and `CREATE DATABASE` and exits: `DROP USER "alice"` is not sent.
When the server rejects the `REVOKE`, the run sends the first three statements and exits:
neither `DROP DATABASE "projects"` nor `DROP USER "alice"` is sent. -/
theorem main_exits_before_rollback :
    (executed (samplePlatform none ["CREATE DATABASE \"projects\" WITH OWNER = \"alice\";"])
        ["provision", "alice", "projects"] (startWorld sampleEnv) =
      [ ("CREATE USER \"alice\" NOSUPERUSER NOCREATEDB NOCREATEROLE NOINHERIT PASSWORD 'wiredcat';",
          none),
        ("CREATE DATABASE \"projects\" WITH OWNER = \"alice\";", some "rejected") ] ∧
      (main (samplePlatform none ["CREATE DATABASE \"projects\" WITH OWNER = \"alice\";"])
        ["provision", "alice", "projects"] (startWorld sampleEnv)).1 = Res.exit 1) ∧
    (executed (samplePlatform none ["REVOKE CONNECT ON DATABASE \"projects\" FROM PUBLIC;"])
        ["provision", "alice", "projects"] (startWorld sampleEnv) =
      [ ("CREATE USER \"alice\" NOSUPERUSER NOCREATEDB NOCREATEROLE NOINHERIT PASSWORD 'wiredcat';",
          none),
        ("CREATE DATABASE \"projects\" WITH OWNER = \"alice\";", none),
        ("REVOKE CONNECT ON DATABASE \"projects\" FROM PUBLIC;", some "rejected") ] ∧
      (main (samplePlatform none ["REVOKE CONNECT ON DATABASE \"projects\" FROM PUBLIC;"])
        ["provision", "alice", "projects"] (startWorld sampleEnv)).1 = Res.exit 1) := by
  decide

/-- C9, the code at a failing input: the `.env` file cannot be loaded while the process
environment holds all five settings.  The run logs that it assumes the process
environment has the variables, then exits with status 1 on the load error: it opens no
connection and sends no statement. -/
theorem main_exits_when_dotenv_is_missing :
    (main (samplePlatform (some "open .env: no such file or directory") [])
        ["provision", "alice", "projects"] (startWorld sampleEnv)).1 = Res.exit 1 ∧
      logged (samplePlatform (some "open .env: no such file or directory") [])
        ["provision", "alice", "projects"] (startWorld sampleEnv) =
        [ "Failed to load .env file",
          "Assuming process environment has necessary environment variables",
          "open .env: no such file or directory" ] ∧
      connections (samplePlatform (some "open .env: no such file or directory") [])
        ["provision", "alice", "projects"] (startWorld sampleEnv) = [] ∧
      executed (samplePlatform (some "open .env: no such file or directory") [])
        ["provision", "alice", "projects"] (startWorld sampleEnv) = [] := by
  decide

/-- C10, the code at a failing input: `DB_host` is unset.  The fatal message is the fixed
text followed by the (empty) value of the variable; the name `DB_host` is not in it. -/
theorem safelyGetEnvVar_message_omits_the_name :
    ((safelyGetEnvVar "DB_host" : Prog Unit String) (startWorld fun _ => none)).1 = Res.exit 1 ∧
      ((safelyGetEnvVar "DB_host" : Prog Unit String) (startWorld fun _ => none)).2.log =
        ["Failed to load environment variable: "] ∧
      ¬ ("DB_host".data <:+: "Failed to load environment variable: ".data) := by
  decide

end Provision
